import Mathlib

/-!
# Verification of the sendblue-go client library

A shallow embedding of `sendblue.go` (package `sendblue`): the JSON
encoding/decoding used by `SendMessage` and `ReadWebhook`, the HTTP
request construction, and the phone-number normalization contract.
Strings model Go strings; the injected `http.Client` is modelled as a
function from requests to outcomes; streams are modelled by their read
outcome.
-/

namespace Sendblue

/-- The `{` character (written via `Char.ofNat` so that source braces
stay unambiguous). -/
def lbrace : Char := Char.ofNat 123

/-- The `}` character. -/
def rbrace : Char := Char.ofNat 125

/-- Skip JSON insignificant whitespace, as Go `encoding/json` does
(space, tab, newline, carriage return). -/
def skipWs : List Char → List Char
  | [] => []
  | c :: r =>
    if c = ' ' ∨ c = '\t' ∨ c = '\n' ∨ c = '\r' then skipWs r else c :: r

/-- Value of a hexadecimal digit character, as accepted by Go's
`\uXXXX` escape decoding. -/
def hexVal (c : Char) : Option Nat :=
  if '0' ≤ c ∧ c ≤ '9' then some (c.toNat - 48)
  else if 'a' ≤ c ∧ c ≤ 'f' then some (c.toNat - 87)
  else if 'A' ≤ c ∧ c ≤ 'F' then some (c.toNat - 55)
  else none

/-- Single-character escape sequences accepted by Go's JSON string
decoder (`\"`, `\\`, `\/`, `\b`, `\f`, `\n`, `\r`, `\t`). -/
def unescapeChar (c : Char) : Option Char :=
  if c = '"' then some '"'
  else if c = '\\' then some '\\'
  else if c = '/' then some '/'
  else if c = 'b' then some (Char.ofNat 8)
  else if c = 'f' then some (Char.ofNat 12)
  else if c = 'n' then some '\n'
  else if c = 'r' then some '\r'
  else if c = 't' then some '\t'
  else none

/-- Lower-case hexadecimal digit for a value below 16, as produced by
Go's JSON string encoder. -/
def hexDigitChar (n : Nat) : Char :=
  if n < 10 then Char.ofNat (48 + n) else Char.ofNat (87 + n)

/-- A `\uXXXX` code unit outside the surrogate range decodes to its
scalar; Go replaces a lone surrogate with U+FFFD. -/
def fixScalar (n : Nat) : Char :=
  if 0xD800 ≤ n ∧ n ≤ 0xDFFF then Char.ofNat 0xFFFD else Char.ofNat n

/-- Decode the body of a JSON string literal (everything after the
opening quote) following Go `encoding/json`: plain characters pass
through, raw control characters are rejected, single-character escapes
and `\uXXXX` escapes (including surrogate pairs, with U+FFFD for lone
surrogates) are decoded. Returns the decoded characters and the input
remaining after the closing quote. Every step consumes at least one
character, so fuel equal to the input length plus one never runs out;
call sites supply exactly that. -/
def parseStringBody : Nat → List Char → Option (List Char × List Char)
  | 0, _ => none
  | _ + 1, [] => none
  | fuel + 1, c :: rest =>
    if c = '"' then some ([], rest)
    else if c = '\\' then
      match rest with
      | [] => none
      | e :: rest2 =>
        if e = 'u' then
          match rest2 with
          | a :: b :: c2 :: d :: rest3 =>
            match hexVal a, hexVal b, hexVal c2, hexVal d with
            | some ha, some hb, some hc, some hd =>
              let n := ((ha * 16 + hb) * 16 + hc) * 16 + hd
              if 0xD800 ≤ n ∧ n ≤ 0xDBFF then
                match rest3 with
                | s1 :: u1 :: a2 :: b2 :: c3 :: d2 :: rest4 =>
                  if s1 = '\\' ∧ u1 = 'u' then
                    match hexVal a2, hexVal b2, hexVal c3, hexVal d2 with
                    | some ha2, some hb2, some hc2, some hd2 =>
                      let n2 := ((ha2 * 16 + hb2) * 16 + hc2) * 16 + hd2
                      if 0xDC00 ≤ n2 ∧ n2 ≤ 0xDFFF then
                        (parseStringBody fuel rest4).map (fun p =>
                          (Char.ofNat (0x10000 + (n - 0xD800) * 0x400 + (n2 - 0xDC00)) :: p.1, p.2))
                      else
                        (parseStringBody fuel rest3).map (fun p => (Char.ofNat 0xFFFD :: p.1, p.2))
                    | _, _, _, _ =>
                      (parseStringBody fuel rest3).map (fun p => (Char.ofNat 0xFFFD :: p.1, p.2))
                  else
                    (parseStringBody fuel rest3).map (fun p => (Char.ofNat 0xFFFD :: p.1, p.2))
                | _ =>
                  (parseStringBody fuel rest3).map (fun p => (Char.ofNat 0xFFFD :: p.1, p.2))
              else
                (parseStringBody fuel rest3).map (fun p => (fixScalar n :: p.1, p.2))
            | _, _, _, _ => none
          | _ => none
        else
          match unescapeChar e with
          | some ch => (parseStringBody fuel rest2).map (fun p => (ch :: p.1, p.2))
          | none => none
    else if c.toNat < 0x20 then none
    else (parseStringBody fuel rest).map (fun p => (c :: p.1, p.2))

/-- JSON values, as recognised by Go `encoding/json` (numbers are kept
as their lexemes; this model never interprets them numerically). -/
inductive Json where
  | null : Json
  | bool (b : Bool) : Json
  | num (lexeme : String) : Json
  | str (s : String) : Json
  | arr (elems : List Json) : Json
  | obj (members : List (String × Json)) : Json

/-- Longest digit run at the front of the input. -/
def takeDigits : List Char → List Char × List Char
  | [] => ([], [])
  | c :: r =>
    if c.isDigit then
      let p := takeDigits r
      (c :: p.1, p.2)
    else ([], c :: r)

/-- Integer part of a JSON number: `0`, or a nonzero digit followed by
digits. -/
def parseIntPart : List Char → Option (List Char × List Char)
  | [] => none
  | c :: r =>
    if c = '0' then some (['0'], r)
    else if c.isDigit then
      let p := takeDigits r
      some (c :: p.1, p.2)
    else none

/-- Optional fractional part of a JSON number: `.` followed by one or
more digits. -/
def parseFracPart (cs : List Char) : Option (List Char × List Char) :=
  match cs with
  | [] => some ([], [])
  | c :: r =>
    if c = '.' then
      match takeDigits r with
      | ([], _) => none
      | (ds, r2) => some ('.' :: ds, r2)
    else some ([], cs)

/-- Optional exponent part of a JSON number: `e` or `E`, an optional
sign, and one or more digits. -/
def parseExpPart (cs : List Char) : Option (List Char × List Char) :=
  match cs with
  | [] => some ([], [])
  | c :: r =>
    if c = 'e' ∨ c = 'E' then
      let (sgn, r1) :=
        match r with
        | s :: r1 => if s = '+' ∨ s = '-' then ([s], r1) else (([] : List Char), s :: r1)
        | [] => ([], [])
      match takeDigits r1 with
      | ([], _) => none
      | (ds, r2) => some (c :: (sgn ++ ds), r2)
    else some ([], cs)

/-- A JSON number lexeme per Go's grammar:
`-?(0|[1-9][0-9]*)(\.[0-9]+)?([eE][+-]?[0-9]+)?`. -/
def parseNumber (cs : List Char) : Option (List Char × List Char) :=
  let (sgn, cs1) :=
    match cs with
    | c :: r => if c = '-' then (['-'], r) else (([] : List Char), cs)
    | [] => ([], [])
  match parseIntPart cs1 with
  | none => none
  | some (ip, r1) =>
    match parseFracPart r1 with
    | none => none
    | some (fp, r2) =>
      match parseExpPart r2 with
      | none => none
      | some (ep, r3) => some (sgn ++ ip ++ fp ++ ep, r3)

mutual

/-- Parse one JSON value, following Go `encoding/json`'s grammar.
The fuel argument bounds recursion; it is always supplied large enough
(see `parseTop`) that it never runs out on syntactically valid input. -/
def parseValue : Nat → List Char → Option (Json × List Char)
  | 0, _ => none
  | fuel + 1, cs =>
    match skipWs cs with
    | [] => none
    | c :: r =>
      if c = lbrace then
        (parseMembers fuel r).map (fun p => (Json.obj p.1, p.2))
      else if c = '[' then
        (parseElems fuel r).map (fun p => (Json.arr p.1, p.2))
      else if c = '"' then
        (parseStringBody (r.length + 1) r).map (fun p => (Json.str ⟨p.1⟩, p.2))
      else if c = 't' then
        if r.take 3 = ['r', 'u', 'e'] then some (Json.bool true, r.drop 3) else none
      else if c = 'f' then
        if r.take 4 = ['a', 'l', 's', 'e'] then some (Json.bool false, r.drop 4) else none
      else if c = 'n' then
        if r.take 3 = ['u', 'l', 'l'] then some (Json.null, r.drop 3) else none
      else
        match parseNumber (c :: r) with
        | some p => some (Json.num ⟨p.1⟩, p.2)
        | none => none

/-- Parse the members of a JSON object, right after the opening brace. -/
def parseMembers : Nat → List Char → Option (List (String × Json) × List Char)
  | 0, _ => none
  | fuel + 1, cs =>
    match skipWs cs with
    | [] => none
    | c :: r =>
      if c = rbrace then some ([], r)
      else parseMemberLoop fuel (c :: r)

/-- Parse one `"key": value` member and the rest of the object. -/
def parseMemberLoop : Nat → List Char → Option (List (String × Json) × List Char)
  | 0, _ => none
  | fuel + 1, cs =>
    match skipWs cs with
    | [] => none
    | c :: r =>
      if c = '"' then
        match parseStringBody (r.length + 1) r with
        | none => none
        | some (k, r1) =>
          match skipWs r1 with
          | [] => none
          | c2 :: r2 =>
            if c2 = ':' then
              match parseValue fuel r2 with
              | none => none
              | some (v, r3) =>
                match skipWs r3 with
                | [] => none
                | c3 :: r4 =>
                  if c3 = ',' then
                    (parseMemberLoop fuel r4).map (fun p => ((⟨k⟩, v) :: p.1, p.2))
                  else if c3 = rbrace then some ([(⟨k⟩, v)], r4)
                  else none
            else none
      else none

/-- Parse the elements of a JSON array, right after the opening
bracket. -/
def parseElems : Nat → List Char → Option (List Json × List Char)
  | 0, _ => none
  | fuel + 1, cs =>
    match skipWs cs with
    | [] => none
    | c :: r =>
      if c = ']' then some ([], r)
      else parseElemLoop fuel (c :: r)

/-- Parse one array element and the rest of the array. -/
def parseElemLoop : Nat → List Char → Option (List Json × List Char)
  | 0, _ => none
  | fuel + 1, cs =>
    match parseValue fuel cs with
    | none => none
    | some (v, r1) =>
      match skipWs r1 with
      | [] => none
      | c :: r2 =>
        if c = ',' then (parseElemLoop fuel r2).map (fun p => (v :: p.1, p.2))
        else if c = ']' then some ([v], r2)
        else none

end

/-- Parse a complete JSON text: one value with nothing but whitespace
after it, as `json.Unmarshal` requires. The fuel `3 * length + 8`
dominates the recursion depth of any input. -/
def parseTop (s : String) : Option Json :=
  match parseValue (3 * s.data.length + 8) s.data with
  | none => none
  | some (v, rest) => if skipWs rest = [] then some v else none

/-- ASCII lower-casing, modelling the case folding Go uses when
matching JSON object keys against struct field names. -/
def lowerStr (s : String) : String := ⟨s.data.map Char.toLower⟩

/-- Go `encoding/json` matches an object key to a field tag exactly,
or failing that case-insensitively. -/
def keyMatch (tag k : String) : Bool := tag == k || tag == lowerStr k

/-- A Message is sent or received from Sendblue (struct `Message`,
fields tagged `number` and `content`). -/
structure Message where
  Number : String
  Content : String
  deriving DecidableEq

/-- A MessageResponse is returned from Sendblue after a message request
was sent (struct `MessageResponse`, fields tagged `status`,
`error_code`, `from_number`, `message_handle`). -/
structure MessageResponse where
  Status : String
  ErrorCode : String
  FromNumber : String
  MessageHandle : String
  deriving DecidableEq

/-- Apply one object member to a `Message` being decoded, as
`json.Unmarshal` does: a string value is stored in the matching field,
a `null` value leaves it unchanged, any other value for a matching key
is a type error, and unknown keys are ignored. -/
def setMessageField (m : Message) (k : String) (v : Json) : Option Message :=
  if keyMatch ("number") k then
    match v with
    | Json.str s => some { m with Number := s }
    | Json.null => some m
    | _ => none
  else if keyMatch ("content") k then
    match v with
    | Json.str s => some { m with Content := s }
    | Json.null => some m
    | _ => none
  else some m

/-- Fold the members of a JSON object into a `Message`, later members
overriding earlier ones as in Go. -/
def decodeMessageFields (m : Message) : List (String × Json) → Option Message
  | [] => some m
  | (k, v) :: rest =>
    match setMessageField m k v with
    | none => none
    | some m2 => decodeMessageFields m2 rest

/-- Decode a JSON value into a `Message` the way
`json.Unmarshal(data, msg)` fills `msg`: `null` leaves the zero value,
an object is folded field by field, anything else is a type error. -/
def decodeMessage : Json → Option Message
  | Json.null => some ⟨"", ""⟩
  | Json.obj ms => decodeMessageFields ⟨"", ""⟩ ms
  | _ => none

/-- Apply one object member to a `MessageResponse` being decoded,
mirroring `setMessageField` for the four response fields. -/
def setResponseField (m : MessageResponse) (k : String) (v : Json) : Option MessageResponse :=
  if keyMatch ("status") k then
    match v with
    | Json.str s => some { m with Status := s }
    | Json.null => some m
    | _ => none
  else if keyMatch ("error_code") k then
    match v with
    | Json.str s => some { m with ErrorCode := s }
    | Json.null => some m
    | _ => none
  else if keyMatch ("from_number") k then
    match v with
    | Json.str s => some { m with FromNumber := s }
    | Json.null => some m
    | _ => none
  else if keyMatch ("message_handle") k then
    match v with
    | Json.str s => some { m with MessageHandle := s }
    | Json.null => some m
    | _ => none
  else some m

/-- Fold the members of a JSON object into a `MessageResponse`. -/
def decodeResponseFields (m : MessageResponse) :
    List (String × Json) → Option MessageResponse
  | [] => some m
  | (k, v) :: rest =>
    match setResponseField m k v with
    | none => none
    | some m2 => decodeResponseFields m2 rest

/-- Decode a JSON value into a `MessageResponse` the way
`json.Unmarshal(rbody, mresp)` fills `mresp`. -/
def decodeMessageResponse : Json → Option MessageResponse
  | Json.null => some ⟨"", "", "", ""⟩
  | Json.obj ms => decodeResponseFields ⟨"", "", "", ""⟩ ms
  | _ => none

/-- `json.Unmarshal` of a webhook body into a `Message` (parse the
whole input as one JSON text, then decode). -/
def unmarshalMessage (s : String) : Option Message :=
  match parseTop s with
  | none => none
  | some v => decodeMessage v

/-- `json.Unmarshal` of a response body into a `MessageResponse`. -/
def unmarshalMessageResponse (s : String) : Option MessageResponse :=
  match parseTop s with
  | none => none
  | some v => decodeMessageResponse v

/-- Go `json.Marshal`'s encoding of one character inside a JSON string:
quote, backslash, newline, carriage return and tab get two-character
escapes; other control characters get `\u00XX`; `<`, `>` and `&` are
HTML-escaped as `<`, `>`, `&`; U+2028 and U+2029 are
escaped; everything else passes through. -/
def escapeChar (c : Char) : List Char :=
  if c = '"' then ['\\', '"']
  else if c = '\\' then ['\\', '\\']
  else if c = '\n' then ['\\', 'n']
  else if c = '\r' then ['\\', 'r']
  else if c = '\t' then ['\\', 't']
  else if c.toNat < 0x20 ∨ c = '<' ∨ c = '>' ∨ c = '&' then
    ['\\', 'u', '0', '0', hexDigitChar (c.toNat / 16), hexDigitChar (c.toNat % 16)]
  else if c.toNat = 0x2028 ∨ c.toNat = 0x2029 then
    ['\\', 'u', '2', '0', '2', hexDigitChar (c.toNat % 16)]
  else [c]

/-- Encode every character of a string body. -/
def escapeList : List Char → List Char
  | [] => []
  | c :: cs => escapeChar c ++ escapeList cs

/-- The characters of `json.Marshal(Message{Number, Content})`:
`{"number":"…","content":"…"}` with both field values escaped.
Field order follows the struct declaration, as Go guarantees. -/
def marshalMessageData (m : Message) : List Char :=
  lbrace :: '"' :: 'n' :: 'u' :: 'm' :: 'b' :: 'e' :: 'r' :: '"' :: ':' :: '"' ::
    (escapeList m.Number.data ++
      ('"' :: ',' :: '"' :: 'c' :: 'o' :: 'n' :: 't' :: 'e' :: 'n' :: 't' :: '"' :: ':' :: '"' ::
        (escapeList m.Content.data ++ ['"', rbrace])))

/-- `json.Marshal` of a `Message`, as a string. Marshalling a struct
whose fields are strings cannot fail in Go, so the error branch of
`json.Marshal` is unreachable and the model is total. -/
def marshalMessage (m : Message) : String := ⟨marshalMessageData m⟩

/-- An outbound HTTP request as built by `SendMessage`: method, URL,
headers in the order they are set, and the request body. -/
structure HttpRequest where
  method : String
  url : String
  headers : List (String × String)
  body : String
  deriving DecidableEq

/-- The behaviour of reading a body stream to completion with
`ioutil.ReadAll`: either the full data, or a read error. -/
inductive ReadResult where
  | success (data : String) : ReadResult
  | failure (msg : String) : ReadResult
  deriving DecidableEq

/-- The outcome of `c.Client.Do(req)`: a transport-level error, or a
response whose body stream is then read. -/
inductive HttpOutcome where
  | transportError (msg : String) : HttpOutcome
  | response (body : ReadResult) : HttpOutcome

/-- A Client is used to send API requests to Sendblue. The injected
`*http.Client` is modelled by its observable behaviour: a function from
the request to the outcome of performing it. -/
structure Client where
  APIKey : String
  SecretKey : String
  Client : HttpRequest → HttpOutcome

/-- NewCustomClient creates a new client from a key pair and a custom
client. -/
def NewCustomClient (client : HttpRequest → HttpOutcome) (api secret : String) : Client :=
  { APIKey := api, SecretKey := secret, Client := client }

/-- The errors `SendMessage` can return, one constructor per `return`
site in the source. `errParse` is the sentinel `ErrParse`; the others
model the `fmt.Errorf` values by their format strings. The
`json.Marshal` and `http.NewRequest` error branches of the source are
unreachable (string-field structs always marshal; the method and URL
are constant and valid) and so have no constructor. -/
inductive SendError where
  | errParse : SendError
  | requestError (msg : String) : SendError
  | readError (msg : String) : SendError
  | unmarshalError : SendError
  | sendFailed : SendError
  deriving DecidableEq

/-- The errors `ReadWebhook` can return. -/
inductive WebhookError where
  | readError (msg : String) : WebhookError
  | unmarshalError : WebhookError
  deriving DecidableEq

/-- The current endpoint - subject to change. -/
def endpoint : String := "https://bluetexts-272923.uc.r.appspot.com/api/send-message"

/-- Modelled from the spec: the phone-number normalizer
(`libphonenumber.Parse(to, "US")` followed by
`libphonenumber.Format(num, libphonenumber.E164)`), whose source is the
external `github.com/ttacon/libphonenumber` dependency and is not part
of this repository. Per spec section 4.1 and its testable properties:
separator characters (spaces, dashes, dots, parentheses) are stripped;
a string with an explicit `+` country code keeps its digits; otherwise
the US region is assumed, accepting ten national digits or eleven
digits with a leading 1; all valid inputs render in E.164 form (`+`,
country code, national digits, no separators); implausible strings
such as `"abc"`, `""` and `"123"` fail. -/
def normalizeUS (raw : String) : Option String :=
  let ds := (raw.data.filter (fun c => !(c = ' ' ∨ c = '-' ∨ c = '(' ∨ c = ')' ∨ c = '.')))
  match ds with
  | '+' :: rest =>
    if rest.all Char.isDigit ∧ 8 ≤ rest.length ∧ rest.length ≤ 15 then
      some ⟨'+' :: rest⟩
    else none
  | _ =>
    if ds.all Char.isDigit then
      if ds.length = 10 then some ⟨'+' :: '1' :: ds⟩
      else if ds.length = 11 ∧ ds.take 1 = ['1'] then some ⟨'+' :: ds⟩
      else none
    else none

/-- SendMessage sends a message to a phone number `to` with a given
`body`. Returns, mirroring the Go `(string, error)` pair, the phone
number the message was sent from together with the error, if any;
additionally the list of HTTP requests issued during the call and the
receiver as it stands after the call (the source never writes through
the receiver, so it is returned unchanged). -/
def SendMessage (c : Client) (to' body : String) :
    (String × Option SendError) × List HttpRequest × Client :=
  match normalizeUS to' with
  | none => (("", some SendError.errParse), [], c)
  | some e164 =>
    let buf := marshalMessage ⟨e164, body⟩
    let req : HttpRequest :=
      { method := "POST", url := endpoint,
        headers := [("sb-api-key-id", c.APIKey), ("sb-api-secret-key", c.SecretKey),
                    ("Content-Type", "application/json")],
        body := buf }
    let result :=
      match c.Client req with
      | HttpOutcome.transportError m => ("", some (SendError.requestError m))
      | HttpOutcome.response (ReadResult.failure m) => ("", some (SendError.readError m))
      | HttpOutcome.response (ReadResult.success rbody) =>
        match unmarshalMessageResponse rbody with
        | none => ("", some SendError.unmarshalError)
        | some mresp =>
          if mresp.Status == "ERROR" then ("", some SendError.sendFailed)
          else (mresp.FromNumber, none)
    (result, [req], c)

/-- ReadWebhook is a method used to process an incoming webhook from
Sendblue. The body stream is modelled by its read outcome; the boolean
records whether the stream's `Close` ran before the function returned.
In the source, `defer r.Close()` is registered only after the
`ioutil.ReadAll` error check, so the read-failure path returns without
closing. -/
def ReadWebhook (r : ReadResult) : (Except WebhookError Message) × Bool :=
  match r with
  | ReadResult.failure m => (Except.error (WebhookError.readError m), false)
  | ReadResult.success data =>
    match unmarshalMessage data with
    | none => (Except.error WebhookError.unmarshalError, true)
    | some msg => (Except.ok msg, true)

theorem hexVal_hexDigitChar : ∀ d, d < 16 → hexVal (hexDigitChar d) = some d := by decide

theorem escapeChar_length_pos (c : Char) : 1 ≤ (escapeChar c).length := by
  unfold escapeChar
  split
  · simp
  split
  · simp
  split
  · simp
  split
  · simp
  split
  · simp
  split
  · simp
  split
  · simp
  · simp

theorem length_le_escapeList : ∀ s : List Char, s.length ≤ (escapeList s).length := by
  intro s
  induction s with
  | nil => simp [escapeList]
  | cons c s ih =>
    have := escapeChar_length_pos c
    simp only [escapeList, List.length_append, List.length_cons]
    omega

/-- Decoding one non-surrogate `\uXXXX` escape. -/
theorem parse_u_escape (g : Nat) (a b c2 d : Char) (va vb vc vd : Nat) (t : List Char)
    (ha : hexVal a = some va) (hb : hexVal b = some vb)
    (hc : hexVal c2 = some vc) (hd : hexVal d = some vd)
    (hval : ((va * 16 + vb) * 16 + vc) * 16 + vd < 0xD800) :
    parseStringBody (g + 1) ('\\' :: 'u' :: a :: b :: c2 :: d :: t) =
      (parseStringBody g t).map
        (fun p => (Char.ofNat (((va * 16 + vb) * 16 + vc) * 16 + vd) :: p.1, p.2)) := by
  simp only [parseStringBody, ha, hb, hc, hd]
  rw [if_pos trivial, if_pos trivial,
    if_neg (by omega : ¬ (0xD800 ≤ ((va * 16 + vb) * 16 + vc) * 16 + vd ∧
      ((va * 16 + vb) * 16 + vc) * 16 + vd ≤ 0xDBFF))]
  simp [fixScalar, if_neg (by omega : ¬ (0xD800 ≤ ((va * 16 + vb) * 16 + vc) * 16 + vd ∧
    ((va * 16 + vb) * 16 + vc) * 16 + vd ≤ 0xDFFF))]

/-- Decoding the encoding of one character consumes one fuel step and
prepends that character. -/
theorem parseStringBody_escapeChar (c : Char) (g : Nat) (t : List Char) :
    parseStringBody (g + 1) (escapeChar c ++ t) =
      (parseStringBody g t).map (fun p => (c :: p.1, p.2)) := by
  by_cases h1 : c = '"'
  · subst h1; simp [escapeChar, parseStringBody, unescapeChar]
  by_cases h2 : c = '\\'
  · subst h2; simp [escapeChar, parseStringBody, unescapeChar]
  by_cases h3 : c = '\n'
  · subst h3; simp [escapeChar, parseStringBody, unescapeChar]
  by_cases h4 : c = '\r'
  · subst h4; simp [escapeChar, parseStringBody, unescapeChar]
  by_cases h5 : c = '\t'
  · subst h5; simp [escapeChar, parseStringBody, unescapeChar]
  by_cases h6 : c.toNat < 0x20 ∨ c = '<' ∨ c = '>' ∨ c = '&'
  · have hlt : c.toNat < 0x40 := by
      rcases h6 with h | h | h | h
      · omega
      all_goals (subst h; decide)
    have e1 : escapeChar c = '\\' :: 'u' :: '0' :: '0' ::
        hexDigitChar (c.toNat / 16) :: [hexDigitChar (c.toNat % 16)] := by
      simp [escapeChar, h1, h2, h3, h4, h5, h6]
    rw [e1]
    simp only [List.cons_append, List.nil_append]
    rw [parse_u_escape g '0' '0' (hexDigitChar (c.toNat / 16)) (hexDigitChar (c.toNat % 16))
      0 0 (c.toNat / 16) (c.toNat % 16) t (by decide) (by decide)
      (hexVal_hexDigitChar _ (by omega)) (hexVal_hexDigitChar _ (by omega)) (by omega)]
    have harith : ((0 * 16 + 0) * 16 + c.toNat / 16) * 16 + c.toNat % 16 = c.toNat := by omega
    rw [harith, Char.ofNat_toNat]
  by_cases h7 : c.toNat = 0x2028 ∨ c.toNat = 0x2029
  · have e1 : escapeChar c = '\\' :: 'u' :: '2' :: '0' :: '2' ::
        [hexDigitChar (c.toNat % 16)] := by
      simp [escapeChar, h1, h2, h3, h4, h5, h6, h7]
    rw [e1]
    simp only [List.cons_append, List.nil_append]
    rw [parse_u_escape g '2' '0' '2' (hexDigitChar (c.toNat % 16))
      2 0 2 (c.toNat % 16) t (by decide) (by decide) (by decide)
      (hexVal_hexDigitChar _ (by omega)) (by omega)]
    have harith : ((2 * 16 + 0) * 16 + 2) * 16 + c.toNat % 16 = c.toNat := by omega
    rw [harith, Char.ofNat_toNat]
  · have e1 : escapeChar c = [c] := by
      simp [escapeChar, h1, h2, h3, h4, h5, h6, h7]
    rw [e1]
    simp only [List.cons_append, List.nil_append]
    simp only [parseStringBody]
    rw [if_neg h1, if_neg h2, if_neg (by omega : ¬ c.toNat < 0x20)]

/-- Decoding the encoding of a whole string body: with fuel larger than
the number of source characters, the decoder returns exactly the source
characters and the input after the closing quote. -/
theorem parseStringBody_escapeList :
    ∀ (s : List Char) (f : Nat), s.length < f → ∀ rest,
      parseStringBody f (escapeList s ++ '"' :: rest) = some (s, rest) := by
  intro s
  induction s with
  | nil =>
    intro f hf rest
    obtain ⟨g, rfl⟩ : ∃ g, f = g + 1 := ⟨f - 1, by omega⟩
    simp [escapeList, parseStringBody]
  | cons c s ih =>
    intro f hf rest
    obtain ⟨g, rfl⟩ : ∃ g, f = g + 1 := ⟨f - 1, by omega⟩
    simp only [escapeList, List.append_assoc]
    rw [parseStringBody_escapeChar, ih g (by simp at hf; omega) rest]
    rfl

theorem skipWs_cons_of_not (c : Char) (h : ¬(c = ' ' ∨ c = '\t' ∨ c = '\n' ∨ c = '\r'))
    (r : List Char) : skipWs (c :: r) = c :: r := by
  simp [skipWs, h]

/-- Parsing a JSON string value made of an escaped body. -/
theorem parseValue_string (g : Nat) (s rest : List Char) :
    parseValue (g + 1) ('"' :: (escapeList s ++ '"' :: rest)) = some (Json.str ⟨s⟩, rest) := by
  have hs : parseStringBody ((escapeList s ++ '"' :: rest).length + 1)
      (escapeList s ++ '"' :: rest) = some (s, rest) := by
    apply parseStringBody_escapeList
    have := length_le_escapeList s
    simp [List.length_append]
    omega
  simp only [parseValue, skipWs_cons_of_not '"' (by decide), hs]
  rfl

/-- Parsing one `"key":"value"` object member followed by a comma. -/
theorem parseMemberLoop_comma (g : Nat) (k s t : List Char) :
    parseMemberLoop (g + 2)
      ('"' :: (escapeList k ++ '"' :: ':' :: '"' :: (escapeList s ++ '"' :: ',' :: t))) =
      (parseMemberLoop (g + 1) t).map (fun p => ((⟨k⟩, Json.str ⟨s⟩) :: p.1, p.2)) := by
  have hk : parseStringBody
      ((escapeList k ++ '"' :: ':' :: '"' :: (escapeList s ++ '"' :: ',' :: t)).length + 1)
      (escapeList k ++ '"' :: ':' :: '"' :: (escapeList s ++ '"' :: ',' :: t)) =
      some (k, ':' :: '"' :: (escapeList s ++ '"' :: ',' :: t)) := by
    apply parseStringBody_escapeList
    have := length_le_escapeList k
    simp [List.length_append]
    omega
  have hv : parseValue (g + 1) ('"' :: (escapeList s ++ '"' :: ',' :: t)) =
      some (Json.str ⟨s⟩, ',' :: t) := parseValue_string g s (',' :: t)
  simp only [parseMemberLoop, skipWs_cons_of_not '"' (by decide),
    skipWs_cons_of_not ':' (by decide), skipWs_cons_of_not ',' (by decide), hk, hv]
  rfl

/-- Parsing the final `"key":"value"` object member followed by the
closing brace. -/
theorem parseMemberLoop_close (g : Nat) (k s t : List Char) :
    parseMemberLoop (g + 2)
      ('"' :: (escapeList k ++ '"' :: ':' :: '"' :: (escapeList s ++ '"' :: rbrace :: t))) =
      some ([(⟨k⟩, Json.str ⟨s⟩)], t) := by
  have hk : parseStringBody
      ((escapeList k ++ '"' :: ':' :: '"' :: (escapeList s ++ '"' :: rbrace :: t)).length + 1)
      (escapeList k ++ '"' :: ':' :: '"' :: (escapeList s ++ '"' :: rbrace :: t)) =
      some (k, ':' :: '"' :: (escapeList s ++ '"' :: rbrace :: t)) := by
    apply parseStringBody_escapeList
    have := length_le_escapeList k
    simp [List.length_append]
    omega
  have hv : parseValue (g + 1) ('"' :: (escapeList s ++ '"' :: rbrace :: t)) =
      some (Json.str ⟨s⟩, rbrace :: t) := parseValue_string g s (rbrace :: t)
  simp only [parseMemberLoop, skipWs_cons_of_not '"' (by decide),
    skipWs_cons_of_not ':' (by decide), skipWs_cons_of_not rbrace (by decide),
    hk, hv]
  rfl

/-- Parsing the full marshalled `Message` object. -/
theorem parseValue_marshalMessage (m : Message) (g : Nat) :
    parseValue (g + 5) (marshalMessageData m) =
      some (Json.obj [(("number" : String), Json.str m.Number),
        (("content" : String), Json.str m.Content)], []) := by
  have h2 : parseMemberLoop (g + 2)
      ('"' :: (escapeList ('c' :: 'o' :: 'n' :: 't' :: 'e' :: 'n' :: 't' :: []) ++
        '"' :: ':' :: '"' :: (escapeList m.Content.data ++ '"' :: rbrace :: []))) =
      some ([(("content" : String), Json.str m.Content)], []) :=
    parseMemberLoop_close g _ m.Content.data []
  have h1 : parseMemberLoop (g + 3)
      ('"' :: (escapeList ('n' :: 'u' :: 'm' :: 'b' :: 'e' :: 'r' :: []) ++
        '"' :: ':' :: '"' :: (escapeList m.Number.data ++ '"' :: ',' ::
          ('"' :: (escapeList ('c' :: 'o' :: 'n' :: 't' :: 'e' :: 'n' :: 't' :: []) ++
            '"' :: ':' :: '"' :: (escapeList m.Content.data ++ '"' :: rbrace :: [])))))) =
      some ([(("number" : String), Json.str m.Number),
        (("content" : String), Json.str m.Content)], []) := by
    rw [parseMemberLoop_comma (g + 1) _ m.Number.data _, h2]
    rfl
  have h0 : parseValue (g + 5) (marshalMessageData m) =
      (parseMembers (g + 4)
        ('"' :: 'n' :: 'u' :: 'm' :: 'b' :: 'e' :: 'r' :: '"' :: ':' :: '"' ::
          (escapeList m.Number.data ++
            ('"' :: ',' :: '"' :: 'c' :: 'o' :: 'n' :: 't' :: 'e' :: 'n' :: 't' ::
              '"' :: ':' :: '"' :: (escapeList m.Content.data ++ ['"', rbrace]))))).map
        (fun p => (Json.obj p.1, p.2)) := by
    simp only [parseValue, marshalMessageData, skipWs_cons_of_not lbrace (by decide)]
    rfl
  rw [h0]
  have h3 : parseMembers (g + 4)
      ('"' :: 'n' :: 'u' :: 'm' :: 'b' :: 'e' :: 'r' :: '"' :: ':' :: '"' ::
        (escapeList m.Number.data ++
          ('"' :: ',' :: '"' :: 'c' :: 'o' :: 'n' :: 't' :: 'e' :: 'n' :: 't' ::
            '"' :: ':' :: '"' :: (escapeList m.Content.data ++ ['"', rbrace])))) =
      parseMemberLoop (g + 3)
        ('"' :: 'n' :: 'u' :: 'm' :: 'b' :: 'e' :: 'r' :: '"' :: ':' :: '"' ::
          (escapeList m.Number.data ++
            ('"' :: ',' :: '"' :: 'c' :: 'o' :: 'n' :: 't' :: 'e' :: 'n' :: 't' ::
              '"' :: ':' :: '"' :: (escapeList m.Content.data ++ ['"', rbrace])))) := by
    simp only [parseMembers, skipWs_cons_of_not '"' (by decide)]
    rfl
  rw [h3, show parseMemberLoop (g + 3)
      ('"' :: 'n' :: 'u' :: 'm' :: 'b' :: 'e' :: 'r' :: '"' :: ':' :: '"' ::
        (escapeList m.Number.data ++
          ('"' :: ',' :: '"' :: 'c' :: 'o' :: 'n' :: 't' :: 'e' :: 'n' :: 't' ::
            '"' :: ':' :: '"' :: (escapeList m.Content.data ++ ['"', rbrace])))) =
      some ([(("number" : String), Json.str m.Number),
        (("content" : String), Json.str m.Content)], []) from h1]
  rfl

/-- Parsing the whole marshalled text, trailing-content check included. -/
theorem parseTop_marshalMessage (m : Message) :
    parseTop (marshalMessage m) =
      some (Json.obj [(("number" : String), Json.str m.Number),
        (("content" : String), Json.str m.Content)]) := by
  unfold parseTop
  rw [show parseValue (3 * (marshalMessage m).data.length + 8) (marshalMessage m).data =
      some (Json.obj [(("number" : String), Json.str m.Number),
        (("content" : String), Json.str m.Content)], []) from
    parseValue_marshalMessage m (3 * (marshalMessage m).data.length + 3)]
  rfl

/-- `json.Unmarshal` inverts `json.Marshal` on any `Message`. -/
theorem unmarshalMessage_marshalMessage (m : Message) :
    unmarshalMessage (marshalMessage m) = some m := by
  unfold unmarshalMessage
  rw [parseTop_marshalMessage]
  rfl

/-- A transport whose requests always fail, used to instantiate
universally quantified clients. -/
def failingTransport : HttpRequest → HttpOutcome :=
  fun _ => HttpOutcome.transportError ("down")

/-- A transport that always answers with the given response body. -/
def constantBodyTransport (rbody : String) : HttpRequest → HttpOutcome :=
  fun _ => HttpOutcome.response (ReadResult.success rbody)

/-- A concrete client whose transport always fails. -/
def witnessClient : Client := ⟨"key", "secret", failingTransport⟩

/-- The stubbed success response body from the spec's testable
properties. -/
def okBody : String :=
  "\x7b\"status\":\"OK\",\"from_number\":\"+15557654321\",\"message_handle\":\"abc123\"\x7d"

/-- The stubbed rejection response body from the spec's testable
properties. -/
def errorBody : String := "\x7b\"status\":\"ERROR\",\"error_code\":\"E1\"\x7d"

/-- A concrete client answering every request with `okBody`. -/
def okClient : Client := ⟨"key", "secret", constantBodyTransport okBody⟩

/-- A concrete client answering every request with `errorBody`. -/
def errorClient : Client := ⟨"key", "secret", constantBodyTransport errorBody⟩

/-- A concrete client answering every request with malformed JSON. -/
def garbageClient : Client := ⟨"key", "secret", constantBodyTransport ("not json")⟩

/-- A concrete client answering every request with an empty JSON
object. -/
def emptyObjClient : Client := ⟨"key", "secret", constantBodyTransport ("\x7b\x7d")⟩

/-- Claim C1: for every input string `to` that cannot be parsed as a
phone number, `SendMessage(to, body)` returns the distinguished parse
error `ErrParse` immediately and performs no network call: the request
trace is empty, so the injected HTTP transport is never invoked, and
the client is untouched. -/
theorem sendMessage_parse_failure_no_request (c : Client) (to' body : String)
    (h : normalizeUS to' = none) :
    SendMessage c to' body = (("", some SendError.errParse), [], c) := by
  simp [SendMessage, h]

/-- Witness for C1 at the unparseable input `"abc"`. -/
theorem sendMessage_parse_failure_no_request_witness :
    normalizeUS ("abc") = none ∧
      SendMessage witnessClient ("abc") ("hello") =
        (("", some SendError.errParse), [], witnessClient) :=
  ⟨by decide, sendMessage_parse_failure_no_request witnessClient ("abc") ("hello") (by decide)⟩

/-- Claim C2, evaluated at the failing input: when the webhook body
stream's read fails, `ReadWebhook` returns the read error with the
stream left unclosed — the `defer r.Close()` in the source is
registered only after the `ioutil.ReadAll` error check, so this exit
path never invokes `Close`, contradicting the claim that every exit
path closes the stream. -/
theorem readWebhook_read_failure_skips_close :
    ReadWebhook (ReadResult.failure ("connection reset")) =
      (Except.error (WebhookError.readError ("connection reset")), false) := rfl

/-- Claim C3: for every client whose transport answers with the stubbed
success body, `SendMessage("555-123-4567", "hi")` returns the parsed
`from_number` field `"+15557654321"` and no error. -/
theorem sendMessage_ok_response (c : Client)
    (h : ∀ req, c.Client req = HttpOutcome.response (ReadResult.success okBody)) :
    (SendMessage c ("555-123-4567") ("hi")).1 = ("+15557654321", none) := by
  simp only [SendMessage, h]
  rfl

/-- Witness for C3 at a concrete client. -/
theorem sendMessage_ok_response_witness :
    (SendMessage okClient ("555-123-4567") ("hi")).1 = ("+15557654321", none) :=
  sendMessage_ok_response okClient (fun _ => rfl)

/-- Claim C4: with a normalizable recipient, for every transport whose
response body is valid JSON decoding to a response whose `status` field
equals `"ERROR"` (such as the stubbed `errorBody`), `SendMessage`
returns the generic send-failed error and the empty string as
`fromNumber`. -/
theorem sendMessage_error_status (c : Client) (to' body e164 rbody : String)
    (mresp : MessageResponse)
    (hn : normalizeUS to' = some e164)
    (ht : ∀ req, c.Client req = HttpOutcome.response (ReadResult.success rbody))
    (hu : unmarshalMessageResponse rbody = some mresp)
    (hs : mresp.Status = "ERROR") :
    (SendMessage c to' body).1 = ("", some SendError.sendFailed) := by
  simp only [SendMessage, hn, ht, hu]
  simp [hs]

/-- Witness for C4 at a concrete client answering with the stubbed
rejection body. -/
theorem sendMessage_error_status_witness :
    (SendMessage errorClient ("555-123-4567") ("hi")).1 = ("", some SendError.sendFailed) :=
  sendMessage_error_status errorClient ("555-123-4567") ("hi") ("+15551234567") errorBody
    ⟨"ERROR", "E1", "", ""⟩ (by decide) (fun _ => rfl) (by decide) rfl

/-- Claim C5: whenever `to` normalizes successfully, `SendMessage`
issues exactly one HTTP POST to the fixed endpoint, carrying the
`sb-api-key-id`, `sb-api-secret-key` and `Content-Type` headers from
the client's credentials, with body the JSON serialization
`{"number": <E.164>, "content": <body>}` — independently of what the
transport then does. -/
theorem sendMessage_request_shape (c : Client) (to' body e164 : String)
    (h : normalizeUS to' = some e164) :
    (SendMessage c to' body).2.1 =
      [{ method := "POST", url := endpoint,
         headers := [("sb-api-key-id", c.APIKey), ("sb-api-secret-key", c.SecretKey),
                     ("Content-Type", "application/json")],
         body := marshalMessage ⟨e164, body⟩ }] := by
  simp only [SendMessage, h]

/-- Witness for C5 at a concrete client and input. -/
theorem sendMessage_request_shape_witness :
    normalizeUS ("555-123-4567") = some ("+15551234567") ∧
      (SendMessage witnessClient ("555-123-4567") ("hi")).2.1 =
        [{ method := "POST", url := endpoint,
           headers := [("sb-api-key-id", "key"), ("sb-api-secret-key", "secret"),
                       ("Content-Type", "application/json")],
           body := marshalMessage ⟨"+15551234567", "hi"⟩ }] :=
  ⟨by decide,
    sendMessage_request_shape witnessClient ("555-123-4567") ("hi") ("+15551234567") (by decide)⟩

/-- Claim C6: with a normalizable recipient and a transport that
delivers the body `rbody`, `SendMessage` returns the distinct
response-parse error exactly when `rbody` fails to unmarshal as a
`MessageResponse` (not valid JSON, or not of the expected shape), and
in that case the returned `fromNumber` is empty. -/
theorem sendMessage_unmarshal_error_iff (c : Client) (to' body e164 rbody : String)
    (hn : normalizeUS to' = some e164)
    (ht : ∀ req, c.Client req = HttpOutcome.response (ReadResult.success rbody)) :
    ((SendMessage c to' body).1.2 = some SendError.unmarshalError ↔
      unmarshalMessageResponse rbody = none) ∧
    (unmarshalMessageResponse rbody = none →
      (SendMessage c to' body).1 = ("", some SendError.unmarshalError)) := by
  simp only [SendMessage, hn, ht]
  cases hu : unmarshalMessageResponse rbody with
  | none => simp
  | some mresp =>
    by_cases hs : mresp.Status = "ERROR" <;> simp [hs]

/-- Witness for C6: the malformed body `"not json"` yields the
response-parse error and no `fromNumber`. -/
theorem sendMessage_unmarshal_error_iff_witness :
    (SendMessage garbageClient ("555-123-4567") ("hi")).1 =
      ("", some SendError.unmarshalError) :=
  (sendMessage_unmarshal_error_iff garbageClient ("555-123-4567") ("hi")
    ("+15551234567") ("not json") (by decide) (fun _ => rfl)).2 (by decide)

/-- Claim C7: serializing any `Message` to JSON and decoding the result
through `ReadWebhook` (over a stream that reads successfully) succeeds
and returns a `Message` equal to the original in both fields, closing
the stream. -/
theorem readWebhook_roundtrip (m : Message) :
    ReadWebhook (ReadResult.success (marshalMessage m)) = (Except.ok m, true) := by
  simp [ReadWebhook, unmarshalMessage_marshalMessage]

/-- Claim C8: each of `"abc"`, `""` and `"123"` fails phone-number
normalization, and `SendMessage` on it returns the parse error with an
empty request trace — no network call is attempted. -/
theorem sendMessage_implausible_inputs (c : Client) (body : String) :
    (normalizeUS ("abc") = none ∧
      SendMessage c ("abc") body = (("", some SendError.errParse), [], c)) ∧
    (normalizeUS ("") = none ∧
      SendMessage c ("") body = (("", some SendError.errParse), [], c)) ∧
    (normalizeUS ("123") = none ∧
      SendMessage c ("123") body = (("", some SendError.errParse), [], c)) := by
  refine ⟨⟨by decide, ?_⟩, ⟨by decide, ?_⟩, ⟨by decide, ?_⟩⟩ <;> rfl

/-- Claim C9: `SendMessage` never mutates the client: the receiver
returned from every call — whatever the normalization, transport and
decoding outcomes — is the client it started with, credentials and
transport included. -/
theorem sendMessage_preserves_client (c : Client) (to' body : String) :
    (SendMessage c to' body).2.2 = c := by
  unfold SendMessage
  cases normalizeUS to' <;> rfl

/-- Claim C10: a response of valid JSON whose fields are absent — such
as `{}` or `null` — decodes to a `MessageResponse` of empty strings,
and any decoded response whose `status` differs from `"ERROR"` makes
`SendMessage` succeed, returning its `from_number` field and no error;
in particular `{}` and `null` yield `("", nil)`. -/
theorem sendMessage_nonerror_status_success :
    unmarshalMessageResponse ("\x7b\x7d") = some ⟨"", "", "", ""⟩ ∧
    unmarshalMessageResponse ("null") = some ⟨"", "", "", ""⟩ ∧
    ∀ (c : Client) (rbody to' body e164 : String) (mresp : MessageResponse),
      normalizeUS to' = some e164 →
      (∀ req, c.Client req = HttpOutcome.response (ReadResult.success rbody)) →
      unmarshalMessageResponse rbody = some mresp →
      mresp.Status ≠ "ERROR" →
      (SendMessage c to' body).1 = (mresp.FromNumber, none) := by
  refine ⟨by decide, by decide, ?_⟩
  intro c rbody to' body e164 mresp hn ht hu hs
  simp only [SendMessage, hn, ht, hu]
  simp [hs]

/-- Witness for C10: the empty-object body `{}` makes the call return
the empty `fromNumber` and no error. -/
theorem sendMessage_nonerror_status_success_witness :
    (SendMessage emptyObjClient ("555-123-4567") ("hi")).1 = ("", none) :=
  sendMessage_nonerror_status_success.2.2 emptyObjClient ("\x7b\x7d") ("555-123-4567")
    ("hi") ("+15551234567") ⟨"", "", "", ""⟩ (by decide) (fun _ => rfl) (by decide) (by decide)

end Sendblue
